import Mathlib

/-!
Verification of the task-list service of the monorepo-pnpm-turbo repository.

The embedded code:
* `packages/backend/src/db/schema.ts` — the `users` and `tasks` tables;
* `packages/backend/src/handlers/taskList.ts` (`getTaskList`) — the single
  read endpoint: `db.select().from(tasks).orderBy(desc(tasks.createdAt))`
  wrapped as `c.json(..., 200)`;
* `packages/backend/src/index.ts` — the Hono app with its CORS configuration;
* `packages/frontend/src/hooks/useTasks.ts` (`useTasks`), the
  `ErrorBoundary`/`TaskList` components and `App.tsx` on the client side.

SQLite compares TEXT columns bytewise (BINARY collation); on UTF-8 encoded
strings that order coincides with the codepoint-lexicographic order of Lean's
`String` linear order, so `createdAt : String` with Lean's `≤` is a faithful
model of `ORDER BY created_at`.
-/

namespace TaskApp

/-- A row of the `users` table as declared in `schema.ts`: integer id,
non-null name, non-null unique email, non-null text creation timestamp. -/
structure User where
  id : Nat
  name : String
  email : String
  createdAt : String
deriving Repr, DecidableEq

/-- A row of the `tasks` table as declared in `schema.ts`: integer id,
non-null integer `userId` referencing `users.id`, non-null title, nullable
description, non-null boolean `completed`, non-null text creation
timestamp. -/
structure Task where
  id : Nat
  userId : Nat
  title : String
  description : Option String
  completed : Bool
  createdAt : String
deriving Repr, DecidableEq

/-- The relational store: the contents of the two tables. -/
structure Store where
  users : List User
  tasks : List Task
deriving Repr, DecidableEq

/-- The comparison used by `orderBy(desc(tasks.createdAt))`: row `a` may come
before row `b` when the creation timestamp of `a` is at least that of `b`. -/
def taskGE (a b : Task) : Prop := b.createdAt ≤ a.createdAt

instance : DecidableRel taskGE := fun a b =>
  inferInstanceAs (Decidable (b.createdAt ≤ a.createdAt))

instance : IsTotal Task taskGE := ⟨fun a b => le_total b.createdAt a.createdAt⟩

instance : IsTrans Task taskGE := ⟨fun _ _ _ hab hbc => le_trans hbc hab⟩

/-- The query issued by `getTaskList`:
SELECT all columns FROM tasks ORDER BY created_at DESC.
A stable sort of the table contents by descending creation timestamp. -/
def tasksQuery (s : Store) : List Task := List.insertionSort taskGE s.tasks

/-- A JSON value, as produced by `c.json` serialising plain JS objects.
Objects keep their key order (JS object property order is insertion order). -/
inductive Json where
  | null : Json
  | bool : Bool → Json
  | num : Nat → Json
  | str : String → Json
  | arr : List Json → Json
  | obj : List (String × Json) → Json
deriving Repr

/-- The JSON object a task row becomes under `c.json`: the six schema columns
in declaration order, `completed` as a JSON boolean, `description` as JSON
null when the column is NULL. -/
def taskToJson (t : Task) : Json :=
  Json.obj
    [ ("id", Json.num t.id)
    , ("userId", Json.num t.userId)
    , ("title", Json.str t.title)
    , ("description", match t.description with
        | none => Json.null
        | some d => Json.str d)
    , ("completed", Json.bool t.completed)
    , ("createdAt", Json.str t.createdAt) ]

/-- An HTTP response: status code and JSON body. -/
structure HttpResponse where
  status : Nat
  body : Json
deriving Repr

/-- The response `c.json(\x7b tasks: allTasks \x7d, 200)` built by
`getTaskList` from the queried rows. -/
def taskListResponse (rows : List Task) : HttpResponse :=
  ⟨200, Json.obj [("tasks", Json.arr (rows.map taskToJson))]⟩

/-- Embedding of `getTaskList` (handlers/taskList.ts) on the success path:
run the ordered select on the store and wrap the rows with status 200. -/
def getTaskList (s : Store) : HttpResponse :=
  taskListResponse (tasksQuery s)

/-- A store-level failure (D1 unavailable, connection error, SQL error). -/
inductive DbError where
  | failure : String → DbError
deriving Repr, DecidableEq

/-- Embedding of `getTaskList` at the exception level: the handler awaits the
query and has no try/catch, so a rejected query propagates out of the handler
unchanged; a fulfilled query is wrapped as a 200 JSON response. -/
def getTaskListRun (q : Except DbError (List Task)) : Except DbError HttpResponse :=
  match q with
  | Except.error e => Except.error e
  | Except.ok rows => Except.ok (taskListResponse rows)

/-- Escaping of one character inside a JSON string literal (quote and
backslash; the rows at hand contain neither control characters nor other
escapes). -/
def jsonEscapeChar (c : Char) : String :=
  if c = '"' then "\\\"" else if c = '\\' then "\\\\" else String.singleton c

/-- Escaping of a JSON string literal body. -/
def jsonEscape (s : String) : String :=
  String.join (s.toList.map jsonEscapeChar)

mutual

/-- Byte-level JSON serialisation, as performed by `c.json` on the response
value (compact output: no whitespace, object keys in insertion order). -/
def serializeJson : Json → String
  | Json.null => "null"
  | Json.bool true => "true"
  | Json.bool false => "false"
  | Json.num n => toString n
  | Json.str s => "\"" ++ jsonEscape s ++ "\""
  | Json.arr xs => "[" ++ serializeItems xs ++ "]"
  | Json.obj kvs => "\x7b" ++ serializeFields kvs ++ "\x7d"

/-- Comma-separated serialisation of array items. -/
def serializeItems : List Json → String
  | [] => ""
  | [x] => serializeJson x
  | x :: y :: xs => serializeJson x ++ "," ++ serializeItems (y :: xs)

/-- Comma-separated serialisation of object fields. -/
def serializeFields : List (String × Json) → String
  | [] => ""
  | [kv] => "\"" ++ jsonEscape kv.1 ++ "\":" ++ serializeJson kv.2
  | kv :: kv2 :: kvs =>
      "\"" ++ jsonEscape kv.1 ++ "\":" ++ serializeJson kv.2 ++ "," ++
        serializeFields (kv2 :: kvs)

end

/-- The array of task objects carried by a list-tasks response body. -/
def responseTasks (r : HttpResponse) : List Json :=
  match r.body with
  | Json.obj [("tasks", Json.arr xs)] => xs
  | _ => []

end TaskApp

namespace TaskApp

/-- C1: with pairwise-distinct creation timestamps the list endpoint returns
exactly the stored tasks, sorted strictly descending by `createdAt`, none
omitted, none duplicated. -/
theorem getTaskList_ordering (s : Store)
    (hdist : (s.tasks.map Task.createdAt).Nodup) :
    (getTaskList s).status = 200 ∧
    (getTaskList s).body = Json.obj [("tasks", Json.arr ((tasksQuery s).map taskToJson))] ∧
    (tasksQuery s).Perm s.tasks ∧
    (tasksQuery s).Chain' (fun a b => b.createdAt < a.createdAt) := by
  refine ⟨rfl, rfl, List.perm_insertionSort taskGE s.tasks, ?_⟩
  have hperm : (tasksQuery s).Perm s.tasks := List.perm_insertionSort taskGE s.tasks
  have hnodup : ((tasksQuery s).map Task.createdAt).Nodup :=
    ((hperm.map Task.createdAt).nodup_iff).mpr hdist
  have hne : (tasksQuery s).Pairwise (fun a b => a.createdAt ≠ b.createdAt) :=
    (List.pairwise_map).mp hnodup
  have hsorted : (tasksQuery s).Pairwise taskGE :=
    List.sorted_insertionSort taskGE s.tasks
  have hstrict : (tasksQuery s).Pairwise (fun a b => b.createdAt < a.createdAt) :=
    (hsorted.and hne).imp (fun h => lt_of_le_of_ne h.1 (fun he => h.2 he.symm))
  exact hstrict.chain'

/-- Witness for C1 at a three-row store with distinct timestamps. -/
theorem getTaskList_ordering_witness :
    (((Store.mk [⟨1, "u", "u@example.com", "2025-01-01"⟩]
        [ ⟨1, 1, "a", some "d", false, "2025-11-19 08:00:00"⟩
        , ⟨2, 1, "b", none, true, "2025-11-19 10:00:00"⟩
        , ⟨3, 1, "c", none, false, "2025-11-19 09:00:00"⟩ ]).tasks.map
          Task.createdAt).Nodup) ∧
    ((getTaskList (Store.mk [⟨1, "u", "u@example.com", "2025-01-01"⟩]
        [ ⟨1, 1, "a", some "d", false, "2025-11-19 08:00:00"⟩
        , ⟨2, 1, "b", none, true, "2025-11-19 10:00:00"⟩
        , ⟨3, 1, "c", none, false, "2025-11-19 09:00:00"⟩ ])).status = 200 ∧
      (getTaskList (Store.mk [⟨1, "u", "u@example.com", "2025-01-01"⟩]
        [ ⟨1, 1, "a", some "d", false, "2025-11-19 08:00:00"⟩
        , ⟨2, 1, "b", none, true, "2025-11-19 10:00:00"⟩
        , ⟨3, 1, "c", none, false, "2025-11-19 09:00:00"⟩ ])).body =
        Json.obj [("tasks", Json.arr ((tasksQuery (Store.mk
          [⟨1, "u", "u@example.com", "2025-01-01"⟩]
          [ ⟨1, 1, "a", some "d", false, "2025-11-19 08:00:00"⟩
          , ⟨2, 1, "b", none, true, "2025-11-19 10:00:00"⟩
          , ⟨3, 1, "c", none, false, "2025-11-19 09:00:00"⟩ ])).map taskToJson))] ∧
      (tasksQuery (Store.mk [⟨1, "u", "u@example.com", "2025-01-01"⟩]
        [ ⟨1, 1, "a", some "d", false, "2025-11-19 08:00:00"⟩
        , ⟨2, 1, "b", none, true, "2025-11-19 10:00:00"⟩
        , ⟨3, 1, "c", none, false, "2025-11-19 09:00:00"⟩ ])).Perm
        [ ⟨1, 1, "a", some "d", false, "2025-11-19 08:00:00"⟩
        , ⟨2, 1, "b", none, true, "2025-11-19 10:00:00"⟩
        , ⟨3, 1, "c", none, false, "2025-11-19 09:00:00"⟩ ] ∧
      (tasksQuery (Store.mk [⟨1, "u", "u@example.com", "2025-01-01"⟩]
        [ ⟨1, 1, "a", some "d", false, "2025-11-19 08:00:00"⟩
        , ⟨2, 1, "b", none, true, "2025-11-19 10:00:00"⟩
        , ⟨3, 1, "c", none, false, "2025-11-19 09:00:00"⟩ ])).Chain'
        (fun a b => b.createdAt < a.createdAt)) :=
  ⟨by decide, getTaskList_ordering _ (by decide)⟩

end TaskApp

namespace TaskApp

/-- C2: every task object in a list-tasks response is a JSON object with
exactly the six keys id, userId, title, description, completed, createdAt in
that order, `completed` carried as a JSON boolean, and `description` carried
as JSON null or a JSON string; this holds over every store. -/
theorem task_shape_fidelity (s : Store) (j : Json)
    (hj : j ∈ responseTasks (getTaskList s)) :
    ∃ kvs : List (String × Json),
      j = Json.obj kvs ∧
      kvs.map Prod.fst =
        ["id", "userId", "title", "description", "completed", "createdAt"] ∧
      (∃ b : Bool, ("completed", Json.bool b) ∈ kvs) ∧
      (("description", Json.null) ∈ kvs ∨
        ∃ d : String, ("description", Json.str d) ∈ kvs) := by
  have hrt : responseTasks (getTaskList s) = (tasksQuery s).map taskToJson := rfl
  rw [hrt] at hj
  rcases List.mem_map.mp hj with ⟨t, _, rfl⟩
  refine ⟨_, rfl, rfl, ⟨t.completed, by simp [taskToJson]⟩, ?_⟩
  cases h : t.description with
  | none => exact Or.inl (by simp [taskToJson, h])
  | some d => exact Or.inr ⟨d, by simp [taskToJson, h]⟩

/-- Witness for C2 at a one-row store. -/
theorem task_shape_fidelity_witness :
    (taskToJson ⟨1, 1, "a", none, false, "08:00"⟩ ∈
      responseTasks (getTaskList
        (Store.mk [] [⟨1, 1, "a", none, false, "08:00"⟩]))) ∧
    (∃ kvs : List (String × Json),
      taskToJson ⟨1, 1, "a", none, false, "08:00"⟩ = Json.obj kvs ∧
      kvs.map Prod.fst =
        ["id", "userId", "title", "description", "completed", "createdAt"] ∧
      (∃ b : Bool, ("completed", Json.bool b) ∈ kvs) ∧
      (("description", Json.null) ∈ kvs ∨
        ∃ d : String, ("description", Json.str d) ∈ kvs)) :=
  ⟨List.Mem.head _,
    task_shape_fidelity (Store.mk [] [⟨1, 1, "a", none, false, "08:00"⟩])
      (taskToJson ⟨1, 1, "a", none, false, "08:00"⟩) (List.Mem.head _)⟩

/-- C3: with an empty tasks table the endpoint does not signal an error: the
query succeeds, the handler answers status 200, and the body serialises to
exactly the text of a JSON object holding one empty tasks array. -/
theorem getTaskList_empty_ok (us : List User) :
    getTaskListRun (Except.ok (tasksQuery (Store.mk us []))) =
      Except.ok ⟨200, Json.obj [("tasks", Json.arr [])]⟩ ∧
    (getTaskList (Store.mk us [])).status = 200 ∧
    serializeJson (getTaskList (Store.mk us [])).body = "\x7b\"tasks\":[]\x7d" := by
  refine ⟨rfl, rfl, ?_⟩
  have h1 : (getTaskList (Store.mk us [])).body = Json.obj [("tasks", Json.arr [])] := rfl
  rw [h1]
  simp only [serializeJson, serializeFields, serializeItems]
  decide

end TaskApp

namespace TaskApp

/-- Modelled from the spec: the store-layer insert of a task row. The
foreign-key constraint tasks.user_id REFERENCES users.id is declared in
`schema.ts` and in the migration SQL, but the engine enforcing it (SQLite/D1)
is not part of this repository; per the spec, inserting a task whose `userId`
matches no existing User row fails at the store layer and persists nothing,
while a valid insert appends the row. -/
def insertTask (s : Store) (t : Task) : Except DbError Store :=
  if s.users.any (fun u => u.id == t.userId) then
    Except.ok ⟨s.users, s.tasks ++ [t]⟩
  else
    Except.error (DbError.failure "FOREIGN KEY constraint failed")

/-- Referential integrity of a store: every task's `userId` is the id of some
user row. -/
def refIntact (s : Store) : Prop :=
  ∀ t ∈ s.tasks, ∃ u ∈ s.users, u.id = t.userId

/-- C4: an insert whose `userId` matches no user fails and leaves no
persisted row, and every successful insert preserves referential
integrity. -/
theorem insertTask_referential_integrity (s : Store) (t : Task)
    (hbad : ∀ u ∈ s.users, u.id ≠ t.userId) :
    insertTask s t = Except.error (DbError.failure "FOREIGN KEY constraint failed") ∧
    (∀ s2 : Store, insertTask s t = Except.ok s2 → False) ∧
    (∀ s1 s2 : Store, ∀ t2 : Task, refIntact s1 → insertTask s1 t2 = Except.ok s2 →
      refIntact s2) := by
  have hno : s.users.any (fun u => u.id == t.userId) = false := by
    rw [List.any_eq_false]
    intro u hu
    simpa using hbad u hu
  refine ⟨?_, ?_, ?_⟩
  · simp [insertTask, hno]
  · intro s2 h
    rw [insertTask, hno] at h
    simp at h
  · intro s1 s2 t2 hri h
    rw [insertTask] at h
    by_cases hok : s1.users.any (fun u => u.id == t2.userId) = true
    · rw [if_pos hok] at h
      rcases List.any_eq_true.mp hok with ⟨u, hu, hui⟩
      cases h
      intro x hx
      rcases List.mem_append.mp hx with hx1 | hx2
      · exact hri x hx1
      · rcases List.mem_singleton.mp hx2 with rfl
        exact ⟨u, hu, by simpa using hui⟩
    · rw [if_neg hok] at h
      cases h

/-- Witness for C4 at a store with no users. -/
theorem insertTask_referential_integrity_witness :
    (∀ u ∈ (Store.mk [] []).users, u.id ≠ (Task.mk 1 999 "t" none false "08:00").userId) ∧
    (insertTask (Store.mk [] []) (Task.mk 1 999 "t" none false "08:00") =
        Except.error (DbError.failure "FOREIGN KEY constraint failed") ∧
      (∀ s2 : Store, insertTask (Store.mk [] []) (Task.mk 1 999 "t" none false "08:00") =
        Except.ok s2 → False) ∧
      (∀ s1 s2 : Store, ∀ t2 : Task, refIntact s1 → insertTask s1 t2 = Except.ok s2 →
        refIntact s2)) :=
  ⟨by simp, insertTask_referential_integrity (Store.mk [] [])
    (Task.mk 1 999 "t" none false "08:00") (by simp)⟩

/-- C5 counterexample: on a failing store query the handler does not return a
JSON success-or-error envelope at all — the raw store error propagates out of
`getTaskList` unchanged, because the handler has no try/catch. -/
theorem getTaskList_error_counterexample :
    getTaskListRun (Except.error (DbError.failure "D1 connection error")) =
      Except.error (DbError.failure "D1 connection error") ∧
    ¬ ∃ r : HttpResponse,
        getTaskListRun (Except.error (DbError.failure "D1 connection error")) =
          Except.ok r := by
  refine ⟨rfl, ?_⟩
  rintro ⟨r, h⟩
  exact Except.noConfusion h

/-- C5 amended: a store-level failure is not caught by application code; it
propagates out of the handler unchanged, for every possible store error. -/
theorem getTaskList_propagates_error (e : DbError) :
    getTaskListRun (Except.error e) = Except.error e := rfl

end TaskApp

namespace TaskApp

/-- A fetch response as the client query function sees it: the ok flag (true
exactly on a 2xx status) and the parsed JSON body. -/
structure FetchResponse where
  ok : Bool
  body : Json
deriving Repr

/-- Embedding of the queryFn of `useTasks` (hooks/useTasks.ts): a fetch-level
exception propagates out of the function; a response with ok false raises
the error message written in the source; an ok response resolves with its
parsed body. -/
def useTasksQueryFn (fetchResult : Except String FetchResponse) : Except String Json :=
  match fetchResult with
  | Except.error e => Except.error e
  | Except.ok r => if r.ok then Except.ok r.body else Except.error "Failed to fetch tasks"

/-- Whether the query result is an error (a thrown queryFn surfaces to the
nearest error boundary under useSuspenseQuery). -/
def queryFailed : Except String Json → Bool
  | Except.error _ => true
  | Except.ok _ => false

/-- The ErrorBoundary state (components/ErrorBoundary.tsx, whose source is
reproduced in the repository docs): the hasError flag and the caught error
message. -/
structure EBState where
  hasError : Bool
  error : Option String
deriving Repr, DecidableEq

/-- getDerivedStateFromError of the boundary: enter the error state with the
caught error recorded. -/
def getDerivedStateFromError (msg : String) : EBState := ⟨true, some msg⟩

/-- The reset action the Retry button of App.tsx is wired to: clear the error
state. -/
def ebReset (_s : EBState) : EBState := ⟨false, none⟩

/-- The boundary render: with an error recorded the fallback view of that
error is shown; otherwise the children render. -/
def ebRender (s : EBState) (fallback : String → String) (children : String) : String :=
  match s.error with
  | some e => if s.hasError then fallback e else children
  | none => children

/-- The fallback of App.tsx: the text "Error: " followed by the message,
shown next to the Retry button. -/
def appErrorText (msg : String) : String := "Error: " ++ msg

/-- C6: the query function errors exactly when the fetch threw or the
response is not 2xx; a non-2xx response raises the human-readable message of
the source; an error put into the boundary renders the visible "Error: ..."
fallback; the reset action of the Retry button clears the error state, after
which the children render again. -/
theorem useTasks_error_handling (fr : Except String FetchResponse)
    (children : String) :
    (queryFailed (useTasksQueryFn fr) = true ↔
      (∃ m, fr = Except.error m) ∨ (∃ r, fr = Except.ok r ∧ r.ok = false)) ∧
    (∀ r : FetchResponse, fr = Except.ok r → r.ok = false →
      useTasksQueryFn fr = Except.error "Failed to fetch tasks") ∧
    (∀ m, ebRender (getDerivedStateFromError m) appErrorText children =
      "Error: " ++ m) ∧
    (∀ m, (ebReset (getDerivedStateFromError m)).hasError = false ∧
      (ebReset (getDerivedStateFromError m)).error = none ∧
      ebRender (ebReset (getDerivedStateFromError m)) appErrorText children =
        children) := by
  refine ⟨?_, ?_, fun m => rfl, fun m => ⟨rfl, rfl, rfl⟩⟩
  · cases fr with
    | error m => simp [useTasksQueryFn, queryFailed]
    | ok r =>
        cases hok : r.ok with
        | true => simp [useTasksQueryFn, queryFailed, hok]
        | false => simp [useTasksQueryFn, queryFailed, hok]
  · rintro r rfl hok
    simp [useTasksQueryFn, hok]

/-- Witness for C6 at a non-2xx response. -/
theorem useTasks_error_handling_witness :
    (queryFailed (useTasksQueryFn (Except.ok ⟨false, Json.null⟩)) = true ↔
      (∃ m, (Except.ok ⟨false, Json.null⟩ : Except String FetchResponse) =
        Except.error m) ∨
      (∃ r, (Except.ok ⟨false, Json.null⟩ : Except String FetchResponse) =
        Except.ok r ∧ r.ok = false)) ∧
    (∀ r : FetchResponse,
      (Except.ok ⟨false, Json.null⟩ : Except String FetchResponse) = Except.ok r →
      r.ok = false →
      useTasksQueryFn (Except.ok ⟨false, Json.null⟩) =
        Except.error "Failed to fetch tasks") ∧
    (∀ m, ebRender (getDerivedStateFromError m) appErrorText "child" =
      "Error: " ++ m) ∧
    (∀ m, (ebReset (getDerivedStateFromError m)).hasError = false ∧
      (ebReset (getDerivedStateFromError m)).error = none ∧
      ebRender (ebReset (getDerivedStateFromError m)) appErrorText "child" =
        "child") :=
  useTasks_error_handling (Except.ok ⟨false, Json.null⟩) "child"

end TaskApp

namespace TaskApp

/-- A store operation issued over the D1 binding within a request. -/
inductive DbOp where
  | selectTasksDesc : DbOp
  | insertTaskOp : Task → DbOp
deriving Repr

/-- Store semantics of one operation: the state after it and its result
rows. A select leaves the store untouched; an insert appends when the
foreign-key check passes. -/
def execOp : DbOp → Store → Store × Except DbError (List Task)
  | DbOp.selectTasksDesc, s => (s, Except.ok (tasksQuery s))
  | DbOp.insertTaskOp t, s =>
      match insertTask s t with
      | Except.ok s2 => (s2, Except.ok [])
      | Except.error e => (s, Except.error e)

/-- Store state after a sequence of operations. -/
def runOps (ops : List DbOp) (s : Store) : Store :=
  ops.foldl (fun st op => (execOp op st).1) s

/-- The operations `getTaskList` issues against the store: exactly one
ordered select and nothing else (the single statement of taskList.ts). -/
def getTaskListOps : List DbOp := [DbOp.selectTasksDesc]

/-- Handling one GET /api/tasks request: index.ts creates a fresh per-request
DB handle over the bound store, the handler runs its operations, and the only
state surviving the request is the store itself. -/
def handleGetTasks (s : Store) : Store × HttpResponse :=
  (runOps getTaskListOps s, getTaskList s)

/-- C7: handling a list request leaves both tables unchanged, and a second
request against the resulting state yields the identical response — the
response is a function of the store alone, with no in-memory carry-over. -/
theorem getTaskList_readonly_stateless (s : Store) :
    (handleGetTasks s).1.users = s.users ∧
    (handleGetTasks s).1.tasks = s.tasks ∧
    (handleGetTasks s).1 = s ∧
    (handleGetTasks ((handleGetTasks s).1)).2 = (handleGetTasks s).2 :=
  ⟨rfl, rfl, rfl, rfl⟩

/-- Embedding of the render of TaskList (components/TaskList.tsx, whose
source is reproduced in the repository docs): the text
"Fetched N tasks from backend." where N is the length of the tasks array of
the fetched body; no individual task is rendered. -/
def renderTaskList (body : Json) : Option String :=
  match body with
  | Json.obj [("tasks", Json.arr xs)] =>
      some ("Fetched " ++ toString xs.length ++ " tasks from backend.")
  | _ => none

/-- C8: after a successful list call over a store holding N tasks of one
user, the client summary displays exactly N. -/
theorem taskCount_render (us : List User) (ts : List Task) (uid : Nat)
    (_hone : ∀ t ∈ ts, t.userId = uid) :
    renderTaskList (getTaskList (Store.mk us ts)).body =
      some ("Fetched " ++ toString ts.length ++ " tasks from backend.") := by
  have hlen : (tasksQuery (Store.mk us ts)).length = ts.length :=
    (List.perm_insertionSort taskGE ts).length_eq
  simp only [renderTaskList, getTaskList, taskListResponse, List.length_map,
    Option.some.injEq]
  rw [hlen]

/-- Witness for C8 at two seeded tasks of user 1. -/
theorem taskCount_render_witness :
    (∀ t ∈ [Task.mk 1 1 "a" none false "09:00", Task.mk 2 1 "b" none true "08:00"],
      t.userId = 1) ∧
    renderTaskList (getTaskList (Store.mk [⟨1, "u", "u@example.com", "x"⟩]
        [Task.mk 1 1 "a" none false "09:00", Task.mk 2 1 "b" none true "08:00"])).body =
      some ("Fetched " ++ toString
        ([Task.mk 1 1 "a" none false "09:00", Task.mk 2 1 "b" none true "08:00"] :
          List Task).length ++ " tasks from backend.") :=
  ⟨by decide, taskCount_render [⟨1, "u", "u@example.com", "x"⟩]
    [Task.mk 1 1 "a" none false "09:00", Task.mk 2 1 "b" none true "08:00"] 1
    (by decide)⟩

end TaskApp

namespace TaskApp

/-- The configuration object passed to the cors middleware in index.ts. -/
structure CorsConfig where
  origin : List String
  allowMethods : List String
  allowHeaders : List String
  exposeHeaders : List String
  maxAge : Nat
  credentials : Bool
deriving Repr, DecidableEq

/-- The literal CORS configuration of index.ts. -/
def corsConfig : CorsConfig :=
  ⟨ ["http://localhost:5173", "https://monorepo-pnpm-turbo-frontend.pages.dev"]
  , ["GET", "POST", "PUT", "DELETE", "OPTIONS"]
  , ["Content-Type", "Authorization"]
  , ["Content-Length"]
  , 600
  , true ⟩

/-- The route pattern the middleware is mounted on in index.ts. -/
def corsMountPattern : String := "/*"

/-- Whether a request path begins with the slash every HTTP path begins
with. -/
def startsWithSlash (path : String) : Bool :=
  match path.toList with
  | '/' :: _ => true
  | _ => false

/-- Modelled from the spec: the wildcard mount pattern of Hono applies a
middleware to every route; any other pattern would apply it only to the equal
path. The middleware library itself is not part of this repository. -/
def patternMatches (pat path : String) : Bool :=
  if pat = "/*" then startsWithSlash path else pat == path

/-- The paths of the routes registered on the app in index.ts. -/
def appRoutes : List String := ["/", "/api/tasks"]

/-- Modelled from the spec: the middleware library is not part of this
repository; per the spec it permits a cross-origin request exactly when the
request's Origin stands in the configured allow-list and its method in the
configured method list. -/
def corsAllows (cfg : CorsConfig) (origin method : String) : Bool :=
  cfg.origin.any (fun o => o == origin) && cfg.allowMethods.any (fun m => m == method)

/-- C9: the CORS layer permits cross-origin requests exactly from the two
configured origins (one local development origin, one production origin) with
the five configured methods; the preflight cache duration is fixed at 600
seconds, credentials are permitted, and the mount pattern covers every
registered route. -/
theorem cors_configuration (origin method : String) :
    (corsAllows corsConfig origin method = true ↔
      ((origin = "http://localhost:5173" ∨
        origin = "https://monorepo-pnpm-turbo-frontend.pages.dev") ∧
       (method = "GET" ∨ method = "POST" ∨ method = "PUT" ∨
        method = "DELETE" ∨ method = "OPTIONS"))) ∧
    corsConfig.origin.length = 2 ∧
    corsConfig.maxAge = 600 ∧
    corsConfig.credentials = true ∧
    appRoutes.all (fun p => patternMatches corsMountPattern p) = true := by
  refine ⟨?_, rfl, rfl, rfl, by decide⟩
  simp only [corsAllows, corsConfig, List.any_cons, List.any_nil, Bool.or_false,
    Bool.and_eq_true, Bool.or_eq_true, beq_iff_eq]
  constructor
  · rintro ⟨ho, hm⟩
    exact ⟨ho.imp Eq.symm Eq.symm,
      hm.imp Eq.symm (fun h => h.imp Eq.symm (fun h2 => h2.imp Eq.symm
        (fun h3 => h3.imp Eq.symm Eq.symm)))⟩
  · rintro ⟨ho, hm⟩
    exact ⟨ho.imp Eq.symm Eq.symm,
      hm.imp Eq.symm (fun h => h.imp Eq.symm (fun h2 => h2.imp Eq.symm
        (fun h3 => h3.imp Eq.symm Eq.symm)))⟩

/-- Witness for C9 at the production origin with method GET. -/
theorem cors_configuration_witness :
    (corsAllows corsConfig "https://monorepo-pnpm-turbo-frontend.pages.dev" "GET" = true ↔
      ((("https://monorepo-pnpm-turbo-frontend.pages.dev" : String) = "http://localhost:5173" ∨
        ("https://monorepo-pnpm-turbo-frontend.pages.dev" : String) =
          "https://monorepo-pnpm-turbo-frontend.pages.dev") ∧
       (("GET" : String) = "GET" ∨ ("GET" : String) = "POST" ∨
        ("GET" : String) = "PUT" ∨ ("GET" : String) = "DELETE" ∨
        ("GET" : String) = "OPTIONS"))) ∧
    corsConfig.origin.length = 2 ∧
    corsConfig.maxAge = 600 ∧
    corsConfig.credentials = true ∧
    appRoutes.all (fun p => patternMatches corsMountPattern p) = true :=
  cors_configuration "https://monorepo-pnpm-turbo-frontend.pages.dev" "GET"

/-- The per-request ambient data besides the queried rows: request headers
and environment bindings as the Hono context carries them. taskList.ts builds
the response from the rows alone, through c.json with a literal status. -/
structure RequestCtx where
  headers : List (String × String)
  env : List (String × String)
deriving Repr, DecidableEq

/-- One execution of the handler with its full inputs: the rows yielded by
the store query and the request context. The response is built from the rows
alone. -/
def getTaskListExec (rows : List Task) (_c : RequestCtx) : HttpResponse :=
  taskListResponse rows

/-- C10: the handler is deterministic in the queried rows — two executions
over the same rows, in arbitrary and possibly different request contexts,
return the same status 200 and byte-identical serialised JSON bodies. -/
theorem getTaskList_deterministic (rows : List Task) (c1 c2 : RequestCtx) :
    getTaskListExec rows c1 = getTaskListExec rows c2 ∧
    (getTaskListExec rows c1).status = 200 ∧
    serializeJson (getTaskListExec rows c1).body =
      serializeJson (getTaskListExec rows c2).body :=
  ⟨rfl, rfl, rfl⟩

end TaskApp
